import Mathlib

/-!
# Verification of the Harmony OCR-fusion and text-normalization pipeline

Shallow embedding of the core of `rchoyhughes/harmony` (step1):

* `src/step1/app/harmony_engine/ocr/engine.py` — the OCR engine adapters
  (`extract_text_with_tesseract`, `extract_text_with_easyocr`) and the
  transcript fusion renderer (`format_fusion_transcript`);
* `src/step1/app/harmony_engine/core/models.py` — model-alias resolution
  (`resolve_model_choice`), the `OCRMode` enum, `TextParseRequest`;
* `src/step1/app/harmony_engine/llm/client.py` — the response JSON
  extraction (`LLMClient._response_to_json`), with `json.loads` kept
  abstract (it is Python standard library, not repository code);
* `src/step1/harmony/pipeline.py` — the orchestration
  (`HarmonyPipeline.parse_text`, `parse_image`, `_run_fusion_ocr`,
  `_write_temp_image`).

Python strings are embedded as `List Char` (`PyStr`).  Python text helpers
(`str.strip`, `str.splitlines`, `str.split('\n')`, `textwrap.dedent`) are
reproduced faithfully, including CPython's `dedent` margin computation.
Exceptions are embedded as an explicit error type `PyExc` carrying the
exact message strings raised by the code; fallible code returns `Except`.
External effects (the filesystem, the OCR recognizers, the LLM network
call) enter as explicit parameters, and the pipeline functions additionally
return the ordered list of observable effect events (`Ev`) so that claims
about "before any image I/O" or "zero network calls" are statable.
-/

/-- Python strings, embedded as their character lists. -/
abbrev PyStr := List Char

/-- The character class stripped by Python `str.strip()` (ASCII whitespace:
space, tab, newline, carriage return, vertical tab, form feed). -/
def pyIsSpace (c : Char) : Bool :=
  c == ' ' || c == '\t' || c == '\n' || c == '\r' || c == '\x0b' || c == '\x0c'

/-- Remove leading characters satisfying `p` (Python `str.lstrip`). -/
def lstripBy (p : Char → Bool) (l : PyStr) : PyStr := l.dropWhile p

/-- Remove trailing characters satisfying `p` (Python `str.rstrip`). -/
def rstripBy (p : Char → Bool) (l : PyStr) : PyStr := (l.reverse.dropWhile p).reverse

/-- Python `str.strip()`. -/
def pyStrip (l : PyStr) : PyStr := rstripBy pyIsSpace (lstripBy pyIsSpace l)

/-- Python `str.lower()` (ASCII-faithful). -/
def pyLower (l : PyStr) : PyStr := l.map Char.toLower

/-- Python `str.split('\n')`. -/
def splitNL : PyStr → List PyStr
  | [] => [[]]
  | c :: rest =>
    if c = '\n' then [] :: splitNL rest
    else
      match splitNL rest with
      | [] => [[c]]
      | l :: ls => (c :: l) :: ls

/-- Join lines with `'\n'` (inverse of `splitNL` on newline-free lines). -/
def joinNL : List PyStr → PyStr
  | [] => []
  | [l] => l
  | l :: ls => l ++ '\n' :: joinNL ls

/-- Line-break characters recognized by Python `str.splitlines()`. -/
def pyIsLineBreak (c : Char) : Bool :=
  c == '\n' || c == '\r' || c == '\x0b' || c == '\x0c' ||
  c == '\x1c' || c == '\x1d' || c == '\x1e' || c == '\x85' ||
  c == '\u2028' || c == '\u2029'

/-- Python `str.splitlines()`: splits on line breaks (treating `"\r\n"` as a
single break) and, unlike `split('\n')`, yields `[]` on the empty string and
no trailing empty line. -/
def pySplitlines : PyStr → List PyStr
  | [] => []
  | '\r' :: '\n' :: rest => [] :: pySplitlines rest
  | c :: rest =>
    if pyIsLineBreak c then [] :: pySplitlines rest
    else
      match pySplitlines rest with
      | [] => [[c]]
      | l :: ls => (c :: l) :: ls

/-- The per-line cleaning shared by both adapters:
`"\n".join(line.strip() for line in lines if line.strip())`. -/
def cleanLines (lines : List PyStr) : PyStr :=
  joinNL ((lines.filter (fun l => !(pyStrip l).isEmpty)).map pyStrip)

/-- Python exceptions raised by the embedded code, carrying their messages. -/
inductive PyExc
  | valueError (msg : PyStr)
  | runtimeError (msg : PyStr)
  | fileNotFoundError (msg : PyStr)
deriving DecidableEq

instance {e a : Type} [DecidableEq e] [DecidableEq a] : DecidableEq (Except e a) := fun x y =>
  match x, y with
  | .ok u, .ok v =>
    if h : u = v then isTrue (by rw [h]) else isFalse (by simp [h])
  | .error u, .error v =>
    if h : u = v then isTrue (by rw [h]) else isFalse (by simp [h])
  | .ok _, .error _ => isFalse (by simp)
  | .error _, .ok _ => isFalse (by simp)

/-- Message of `RuntimeError` raised when Tesseract is not installed. -/
def tessNotInstalledMsg : PyStr :=
  ("Tesseract is not installed. Install it (e.g., `brew install tesseract`)" ++
   " or set the TESSERACT_CMD environment variable to its binary.").data

/-- Message of `RuntimeError` raised when Tesseract finds no text. -/
def tessEmptyMsg : PyStr :=
  "OCR succeeded but returned empty text. Try a clearer screenshot.".data

/-- Message of `RuntimeError` raised when EasyOCR is not installed. -/
def easyNotInstalledMsg : PyStr :=
  "EasyOCR is not installed. Run `pip install easyocr`.".data

/-- Message of `RuntimeError` raised when EasyOCR finds no text. -/
def easyEmptyMsg : PyStr :=
  "EasyOCR returned no text. Try a clearer screenshot.".data

/-- Message of the `FileNotFoundError` raised on a missing image path. -/
def imageNotFoundMsg (expandedPath : PyStr) : PyStr :=
  "Image not found: ".data ++ expandedPath

/-- `engine.extract_text_with_tesseract`.  The filesystem and the recognizer
are abstracted by `file_exists` (does `image_path` resolve to a file),
`tess_installed` (is the Tesseract binary present), and `raw_text` (the raw
recognizer output `pytesseract.image_to_string` would produce). -/
def extract_text_with_tesseract (image_path : PyStr) (file_exists tess_installed : Bool)
    (raw_text : PyStr) : Except PyExc PyStr :=
  if !file_exists then .error (.fileNotFoundError (imageNotFoundMsg image_path))
  else if !tess_installed then .error (.runtimeError tessNotInstalledMsg)
  else
    let cleaned := cleanLines (pySplitlines raw_text)
    if cleaned.isEmpty then .error (.runtimeError tessEmptyMsg)
    else .ok cleaned

/-- `engine.extract_text_with_easyocr`.  `easy_available` is the module-level
`EASYOCR_AVAILABLE` flag; `result` is the line list `reader.readtext(...,
detail=0)` would produce.  Note the availability check precedes the
path-existence check, the opposite order from the Tesseract adapter. -/
def extract_text_with_easyocr (image_path : PyStr) (easy_available file_exists : Bool)
    (result : List PyStr) : Except PyExc PyStr :=
  if !easy_available then .error (.runtimeError easyNotInstalledMsg)
  else if !file_exists then .error (.fileNotFoundError (imageNotFoundMsg image_path))
  else
    let cleaned := cleanLines result
    if cleaned.isEmpty then .error (.runtimeError easyEmptyMsg)
    else .ok cleaned

/-- Characters counted as indentation by `textwrap.dedent` (space and tab,
per CPython's `_whitespace_only_re` / `_leading_whitespace_re`). -/
def isIndentChar (c : Char) : Bool := c == ' ' || c == '\t'

/-- `textwrap.dedent` first normalizes lines consisting solely of spaces and
tabs to empty lines. -/
def blankNorm (l : PyStr) : PyStr :=
  if !l.isEmpty && l.all isIndentChar then [] else l

/-- Longest common prefix of two character lists (CPython's margin merge). -/
def commonStem : PyStr → PyStr → PyStr
  | a :: as, b :: bs => if a = b then a :: commonStem as bs else []
  | _, _ => []

/-- Leading space/tab run of a line. -/
def lineIndent (l : PyStr) : PyStr := l.takeWhile isIndentChar

/-- Does the line contain a character beyond its space/tab indentation?
Only such lines contribute to the dedent margin. -/
def hasContent (l : PyStr) : Bool := !(l.dropWhile isIndentChar).isEmpty

/-- One step of CPython's `textwrap.dedent` margin scan: a line with
content merges its indent into the margin via longest common prefix;
other lines leave the margin unchanged. -/
def marginStep (m : Option PyStr) (l : PyStr) : Option PyStr :=
  if hasContent l then
    match m with
    | none => some (lineIndent l)
    | some mm => some (commonStem mm (lineIndent l))
  else m

/-- The common margin of a list of (blank-normalized) lines, exactly as
CPython's `textwrap.dedent` computes it. -/
def dedentMargin (ls : List PyStr) : Option PyStr :=
  ls.foldl marginStep none

/-- Remove the margin from a line when the line starts with it (CPython's
final `re.sub(r'(?m)^' + margin, '', text)`). -/
def removeMargin (margin : PyStr) (l : PyStr) : PyStr :=
  if margin.isPrefixOf l then l.drop margin.length else l

/-- `textwrap.dedent`. -/
def pyDedent (s : PyStr) : PyStr :=
  let ls := (splitNL s).map blankNorm
  let margin := (dedentMargin ls).getD []
  joinNL (ls.map (removeMargin margin))

/-- The 8-space indentation of the fusion f-string template. -/
def tmplInd : PyStr := "        ".data

/-- The Tesseract section header line of the fusion template. -/
def tessHeader : PyStr := "[Tesseract OCR Transcript]".data

/-- The 24-dash rule under the Tesseract header. -/
def tessDashes : PyStr := "------------------------".data

/-- The EasyOCR section header line of the fusion template. -/
def easyHeader : PyStr := "[EasyOCR OCR Transcript]".data

/-- The 23-dash rule under the EasyOCR header. -/
def easyDashes : PyStr := "-----------------------".data

/-- The literal placeholder substituted for a transcript that strips to
empty: `'(no text found)'`. -/
def noTextFound : PyStr := "(no text found)".data

/-- `text.strip() or '(no text found)'`. -/
def orPlaceholder (text : PyStr) : PyStr :=
  if (pyStrip text).isEmpty then noTextFound else pyStrip text

/-- The interpolated f-string inside `format_fusion_transcript`, line by
line (the f-string opens with a newline and closes with an 8-space-indented
line; the separator line between the two sections is empty). -/
def fusionTemplate (tesseract_text easyocr_text : PyStr) : PyStr :=
  joinNL [[],
    tmplInd ++ tessHeader,
    tmplInd ++ tessDashes,
    tmplInd ++ orPlaceholder tesseract_text,
    [],
    tmplInd ++ easyHeader,
    tmplInd ++ easyDashes,
    tmplInd ++ orPlaceholder easyocr_text,
    tmplInd]

/-- `engine.format_fusion_transcript`: `dedent(f"""...""").strip()`. -/
def format_fusion_transcript (tesseract_text easyocr_text : PyStr) : PyStr :=
  pyStrip (pyDedent (fusionTemplate tesseract_text easyocr_text))

/-- The role of a future submitted by `_run_fusion_ocr` to its two-worker
pool: which engine the future runs. -/
inductive EngineRole
  | tesseract
  | easyocr
deriving DecidableEq, BEq

/-- Retrieving `future.result()` for the engine with the given role from the
pool's completed tasks.  `completions` lists the finished tasks in completion
order; each future is identified by its role, so the retrieved result does
not depend on that order. -/
def future_result (role : EngineRole) (completions : List (EngineRole × Except PyExc PyStr)) :
    Except PyExc PyStr :=
  match completions.find? (fun p => p.1 == role) with
  | some p => p.2
  | none => .error (.runtimeError "future never submitted".data)

/-- The join phase of `_run_fusion_ocr`: `tess_future.result()` is demanded
first, then `easy_future.result()`; a raised exception propagates
immediately, and only if both succeed is `format_fusion_transcript`
applied. -/
def fuse_completions (completions : List (EngineRole × Except PyExc PyStr)) :
    Except PyExc PyStr := do
  let tesseract_text ← future_result .tesseract completions
  let easyocr_text ← future_result .easyocr completions
  .ok (format_fusion_transcript tesseract_text easyocr_text)

/-- Message of the `RuntimeError` raised when fusion is requested while
`EASYOCR_AVAILABLE` is false. -/
def fusionRequiresMsg : PyStr :=
  "EasyOCR is required for OCR fusion. Install it with `pip install easyocr`.".data

/-- `HarmonyPipeline._run_fusion_ocr` at the level of the two engine
outcomes: the `EASYOCR_AVAILABLE` precondition check, then fan-out/fan-in
over the two futures. -/
def run_fusion_core (easy_available : Bool) (tess_result easy_result : Except PyExc PyStr) :
    Except PyExc PyStr :=
  if !easy_available then
    .error (.runtimeError fusionRequiresMsg)
  else
    fuse_completions [(.tesseract, tess_result), (.easyocr, easy_result)]

/-- `models.DEFAULT_MODEL_ALIAS`. -/
def DEFAULT_MODEL_ALIAS : PyStr := "gpt-5-mini".data

/-- `models.MODEL_ALIASES`, in the dict literal's insertion order. -/
def MODEL_ALIASES : List (PyStr × PyStr) :=
  [("gpt-5-mini".data, "openai/gpt-5-mini".data),
   ("5-mini".data, "openai/gpt-5-mini".data),
   ("gpt5".data, "openai/gpt-5-mini".data),
   ("gpt5-mini".data, "openai/gpt-5-mini".data),
   ("gpt-4.1-mini".data, "openai/gpt-4.1-mini".data),
   ("4.1-mini".data, "openai/gpt-4.1-mini".data),
   ("gpt4.1-mini".data, "openai/gpt-4.1-mini".data),
   ("gpt4-mini".data, "openai/gpt-4.1-mini".data),
   ("gemini".data, "google/gemini-2.5-flash".data),
   ("google".data, "google/gemini-2.5-flash".data),
   ("grok".data, "xai/grok-4.1-fast-reasoning".data),
   ("xai".data, "xai/grok-4.1-fast-reasoning".data),
   ("deepseek".data, "deepseek/deepseek-v3.2-thinking".data)]

/-- Dictionary lookup `MODEL_ALIASES[alias]`. -/
def aliasLookup (a : PyStr) : Option PyStr :=
  (MODEL_ALIASES.find? (fun p => p.1 == a)).map (·.2)

/-- The module-level loop deriving `_primary_aliases`: the first alias seen
for each distinct target, in insertion order. -/
def primaryAliases : List (PyStr × PyStr) → List PyStr → List PyStr
  | [], _ => []
  | (a, target) :: rest, seen =>
    if seen.contains target then primaryAliases rest seen
    else a :: primaryAliases rest (target :: seen)

/-- `models.SUPPORTED_MODELS` (as a list; the code turns it into a tuple). -/
def SUPPORTED_MODELS : List PyStr := primaryAliases MODEL_ALIASES []

/-- `", ".join(SUPPORTED_MODELS)`. -/
def joinCommaSpace (ls : List PyStr) : PyStr := List.intercalate ", ".data ls

/-- The `ValueError` message for an unrecognized shorthand:
`f"Unsupported model '{model}'. Choose one of: {', '.join(SUPPORTED_MODELS)}."`
(`model` is the original optional argument, rendered as Python's f-string
would render it). -/
def unsupportedModelMsg (model : Option PyStr) : PyStr :=
  "Unsupported model '".data ++ (match model with | some m => m | none => "None".data) ++
  "'. Choose one of: ".data ++ joinCommaSpace SUPPORTED_MODELS ++ ".".data

/-- `models.resolve_model_choice`. -/
def resolve_model_choice (model model_string : Option PyStr) : Except PyExc PyStr :=
  if model.isSome && model_string.isSome then
    .error (.valueError "Specify either model or model_string, not both.".data)
  else
    match model_string with
    | some ms =>
      let cleaned := pyStrip ms
      if cleaned.isEmpty then .error (.valueError "Model string cannot be empty.".data)
      else .ok cleaned
    | none =>
      let base := match model with
        | some m => if m.isEmpty then DEFAULT_MODEL_ALIAS else m
        | none => DEFAULT_MODEL_ALIAS
      let aliasStr := pyLower (pyStrip base)
      match aliasLookup aliasStr with
      | some target => .ok target
      | none => .error (.valueError (unsupportedModelMsg model))

/-- The `OCRMode` enum. -/
inductive OCRMode
  | tesseract
  | easyocr
  | fusion
deriving DecidableEq

/-- The `.value` string of each `OCRMode` member. -/
def OCRMode.value : OCRMode → PyStr
  | .tesseract => "ocr-tesseract".data
  | .easyocr => "ocr-easyocr".data
  | .fusion => "ocr-fusion".data

/-- The four provenance tags named by the specification: the default text
tag plus the three `OCRMode` values. -/
def PROVENANCE_TAGS : List PyStr :=
  ["text".data, OCRMode.tesseract.value, OCRMode.easyocr.value, OCRMode.fusion.value]

/-- Observable effect events of a pipeline invocation, in program order.
`tempCreate`/`tempUnlink` are the temporary image file's filesystem events;
`ocrTesseract`/`ocrEasyocr` are engine invocations on the image;
`llmCall` is the outbound network call to the extraction service, recording
the `source_type` tag the request carries. -/
inductive Ev
  | tempCreate
  | tempUnlink
  | ocrTesseract
  | ocrEasyocr
  | llmCall (source_type : PyStr)
deriving DecidableEq

/-- `pipeline.HarmonyPipeline.parse_text` followed by
`LLMClient.parse_text`: resolve the model selector, then (inside the
client) reject empty text, then perform the network call.  `llm` abstracts
the external extraction service as a function of the text, the source type
and the resolved model id. -/
def parse_text_pipeline {α : Type} (llm : PyStr → PyStr → PyStr → Except PyExc α)
    (text : PyStr) (model model_string : Option PyStr) (source_type : PyStr) :
    List Ev × Except PyExc α :=
  match resolve_model_choice model model_string with
  | .error e => ([], .error e)
  | .ok selected_model =>
    if (pyStrip text).isEmpty then
      ([], .error (.valueError "Cannot parse an empty text snippet.".data))
    else
      ([.llmCall source_type], llm text source_type selected_model)

/-- `HarmonyPipeline._write_temp_image`.  `decodable` abstracts whether
`PIL.Image.open` accepts the uploaded bytes; `save_ok` abstracts whether
`img.save` into the freshly created named temporary file succeeds.  The
temporary file is created (`tempCreate`) before the save is attempted, and
a failing save leaves it on disk: the `except` clause only re-raises as
`ValueError`. -/
def write_temp_image (decodable save_ok : Bool) (temp_name : PyStr) :
    List Ev × Except PyExc PyStr :=
  if !decodable then
    ([], .error (.valueError "Uploaded file is not a valid image.".data))
  else if !save_ok then
    ([.tempCreate], .error (.valueError "Uploaded file is not a valid image.".data))
  else
    ([.tempCreate], .ok temp_name)

/-- `HarmonyPipeline._run_fusion_ocr` over a freshly written temporary
image: the availability precondition, then both adapters run on the image
(two futures) and their results are joined. -/
def run_fusion_ocr (temp_name : PyStr) (easy_available tess_installed : Bool)
    (tess_raw : PyStr) (easy_raw : List PyStr) : List Ev × Except PyExc PyStr :=
  if !easy_available then
    ([], .error (.runtimeError fusionRequiresMsg))
  else
    ([.ocrTesseract, .ocrEasyocr],
     fuse_completions
       [(.tesseract, extract_text_with_tesseract temp_name true tess_installed tess_raw),
        (.easyocr, extract_text_with_easyocr temp_name easy_available true easy_raw)])

/-- `HarmonyPipeline.parse_image`: empty-upload check, temp-image write,
OCR step selected by `ocr_mode`, LLM parse of the OCR text tagged with the
mode's `.value`, and the `finally` block unlinking the temporary file.
The recognizers' behavior on the temporary image is abstracted by
`tess_installed`/`tess_raw` (Tesseract present; its raw output) and
`easy_available`/`easy_raw` (the `EASYOCR_AVAILABLE` flag; EasyOCR's line
list). -/
def parse_image {α : Type} (llm : PyStr → PyStr → PyStr → Except PyExc α)
    (image_bytes_empty decodable save_ok : Bool) (temp_name : PyStr)
    (ocr_mode : OCRMode) (easy_available tess_installed : Bool)
    (tess_raw : PyStr) (easy_raw : List PyStr)
    (model model_string : Option PyStr) :
    List Ev × Except PyExc (PyStr × α) :=
  if image_bytes_empty then
    ([], .error (.valueError "Uploaded image is empty.".data))
  else
    match write_temp_image decodable save_ok temp_name with
    | (evs, .error e) => (evs, .error e)
    | (evs, .ok temp_path) =>
      let step : List Ev × Except PyExc PyStr :=
        match ocr_mode with
        | .tesseract =>
          ([.ocrTesseract], extract_text_with_tesseract temp_path true tess_installed tess_raw)
        | .easyocr =>
          ([.ocrEasyocr], extract_text_with_easyocr temp_path easy_available true easy_raw)
        | .fusion =>
          run_fusion_ocr temp_path easy_available tess_installed tess_raw easy_raw
      match step with
      | (evs2, .error e) => (evs ++ evs2 ++ [.tempUnlink], .error e)
      | (evs2, .ok ocr_text) =>
        match parse_text_pipeline llm ocr_text model model_string ocr_mode.value with
        | (evs3, .error e) => (evs ++ evs2 ++ evs3 ++ [.tempUnlink], .error e)
        | (evs3, .ok event) => (evs ++ evs2 ++ evs3 ++ [.tempUnlink], .ok (ocr_text, event))

/-- `models.TextParseRequest` after pydantic validation. -/
structure TextParseRequest where
  text : PyStr
  model : Option PyStr
  model_string : Option PyStr
  source_type : PyStr
deriving DecidableEq

/-- Pydantic validation of `TextParseRequest` from raw field values:
`str_strip_whitespace=True` strips every string field, `text` must be
non-empty after stripping (`min_length=1`), and `source_type` defaults to
`"text"` when omitted. -/
def mkTextParseRequest (text : PyStr) (model model_string : Option PyStr)
    (source_type : Option PyStr) : Option TextParseRequest :=
  let t := pyStrip text
  if t.isEmpty then none
  else some ⟨t, model.map pyStrip, model_string.map pyStrip,
             pyStrip (source_type.getD "text".data)⟩

/-- The `/parse/text` endpoint body (`main.parse_text`): forward the
validated request's fields to `HarmonyPipeline.parse_text`. -/
def server_parse_text {α : Type} (llm : PyStr → PyStr → PyStr → Except PyExc α)
    (req : TextParseRequest) : List Ev × Except PyExc α :=
  parse_text_pipeline llm req.text req.model req.model_string req.source_type

/-- The fence-stripping step of `LLMClient._response_to_json`: on a body
starting with three backticks, drop through the first newline (if any),
then, when the body ends with three backticks, drop those and strip.
`drop_fence_head` is the `cleaned[first_newline + 1:]` slice (a no-op when
the body has no newline, since `find` returned -1). -/
def drop_fence_head (cleaned : PyStr) : PyStr :=
  if '\n' ∈ cleaned
  then (cleaned.dropWhile (fun c => !(c == '\n'))).drop 1
  else cleaned

/-- The fenced-block branch of `_response_to_json`, assembled from
`drop_fence_head` and the closing-fence trim. -/
def strip_code_fence (cleaned : PyStr) : PyStr :=
  if "```".data <+: cleaned then
    if "```".data <:+ drop_fence_head cleaned then
      pyStrip ((drop_fence_head cleaned).take ((drop_fence_head cleaned).length - 3))
    else drop_fence_head cleaned
  else cleaned

/-- `LLMClient._response_to_json`: strip the reply, strip a Markdown code
fence, then parse with `json.loads` (abstracted by `loads`, since it is
Python standard library, not repository code); a parse failure raises
`RuntimeError` with the original reply attached. -/
def response_to_json {α : Type} (loads : PyStr → Option α) (raw_text : PyStr) :
    Except PyExc α :=
  let cleaned := strip_code_fence (pyStrip raw_text)
  match loads cleaned with
  | some obj => .ok obj
  | none => .error (.runtimeError ("Model output was not valid JSON:\n".data ++ raw_text))

/-- C10: for every call to `resolve_model_choice` in which both a shorthand
alias and an explicit model string are supplied, the call fails with the
`ValueError` "Specify either model or model_string, not both." before any
other processing; the explicit string does not silently take precedence. -/
theorem claim_C10_both_selectors_rejected (m ms : PyStr) :
    resolve_model_choice (some m) (some ms) =
      .error (.valueError "Specify either model or model_string, not both.".data) := rfl

/-- C1 counterexample: with the Tesseract adapter succeeding (transcript
"HELLO") and the EasyOCR adapter failing with its empty-result error, the
fusion operation does not succeed with a placeholder section — it fails,
propagating the EasyOCR exception.  This refutes the claim that fusion
tolerates exactly one adapter failing. -/
theorem claim_C1_counterexample :
    run_fusion_core true (.ok "HELLO".data) (.error (.runtimeError easyEmptyMsg)) =
      .error (.runtimeError easyEmptyMsg) := rfl

/-- C1 amended: for every image for which exactly one of the two OCR
adapters fails while the other succeeds, the fusion operation fails,
propagating the failed adapter's exception unchanged (it never substitutes
the placeholder for a failed engine, because `future.result()` re-raises
before `format_fusion_transcript` runs). -/
theorem claim_C1_amended (transcript : PyStr) (exc : PyExc) :
    run_fusion_core true (.error exc) (.ok transcript) = .error exc ∧
    run_fusion_core true (.ok transcript) (.error exc) = .error exc :=
  ⟨rfl, rfl⟩

/-- C4 counterexample: with both adapters failing (Tesseract with its
empty-result error, EasyOCR with two different errors in turn), fusion
fails with exactly the Tesseract error; the result is identical whatever
the EasyOCR failure was, so the surfaced error cannot reflect both
engines' failures. -/
theorem claim_C4_counterexample :
    run_fusion_core true (.error (.runtimeError tessEmptyMsg))
        (.error (.runtimeError easyEmptyMsg)) =
      .error (.runtimeError tessEmptyMsg) ∧
    run_fusion_core true (.error (.runtimeError tessEmptyMsg))
        (.error (.runtimeError easyNotInstalledMsg)) =
      .error (.runtimeError tessEmptyMsg) :=
  ⟨rfl, rfl⟩

/-- C4 amended: for every image on which both OCR adapters fail, the fusion
operation fails with the primary (Tesseract) adapter's error alone — the
first `future.result()` re-raises it and the secondary engine's failure is
discarded, not combined. -/
theorem claim_C4_amended (tessExc easyExc : PyExc) :
    run_fusion_core true (.error tessExc) (.error easyExc) = .error tessExc := rfl

/-- C3 amended: for every fusion-mode `parse_image` invocation made while
the secondary engine is unavailable (with non-empty, decodable image
bytes), dispatch fails with the distinct fusion-unavailable `RuntimeError`,
invokes neither engine and makes no LLM call — it never degrades to
single-engine behavior — but only after the uploaded image has been
decoded and written to (and then unlinked from) a temporary file, so image
I/O does occur first. -/
theorem claim_C3_amended {α : Type} (llm : PyStr → PyStr → PyStr → Except PyExc α)
    (temp_name : PyStr) (tess_installed : Bool) (tess_raw : PyStr)
    (easy_raw : List PyStr) (model model_string : Option PyStr) :
    parse_image llm false true true temp_name .fusion false tess_installed
        tess_raw easy_raw model model_string =
      ([.tempCreate, .tempUnlink], .error (.runtimeError fusionRequiresMsg)) := rfl

/-- C3 counterexample: a concrete fusion-mode dispatch with the secondary
engine unavailable does fail with the fusion-unavailable error, but its
event trace contains the temporary-image write — image I/O — before the
failure, refuting "before any image I/O". -/
theorem claim_C3_counterexample :
    (parse_image (fun _ _ _ => (.ok 0 : Except PyExc Nat)) false true true
        "tmp.png".data .fusion false true "RAW".data [] none none).1 =
      [.tempCreate, .tempUnlink] ∧
    ((parse_image (fun _ _ _ => (.ok 0 : Except PyExc Nat)) false true true
        "tmp.png".data .fusion false true "RAW".data [] none none).1.contains
      Ev.tempCreate) = true ∧
    (parse_image (fun _ _ _ => (.ok 0 : Except PyExc Nat)) false true true
        "tmp.png".data .fusion false true "RAW".data [] none none).2 =
      .error (.runtimeError fusionRequiresMsg) :=
  ⟨rfl, rfl, rfl⟩

/-- Cleaning a list of lines that all strip to empty yields the empty
string. -/
theorem cleanLines_eq_nil {lines : List PyStr} (h : ∀ l ∈ lines, pyStrip l = []) :
    cleanLines lines = [] := by
  have hf : lines.filter (fun l => !(pyStrip l).isEmpty) = [] := by
    induction lines with
    | nil => rfl
    | cons a t ih =>
      have ha : pyStrip a = [] := h a (List.mem_cons_self a t)
      simp only [List.filter_cons, ha, List.isEmpty_nil, Bool.not_true, Bool.false_eq_true,
        if_false]
      exact ih (fun l hl => h l (List.mem_cons_of_mem a hl))
  simp [cleanLines, hf, joinNL]

/-- C5: an OCR engine run whose raw output consists only of empty or
whitespace lines fails with the engine's empty-result error rather than
succeeding with an empty sequence (first two conjuncts, one per adapter),
and consequently every successful extract returns non-empty cleaned text
(last two conjuncts). -/
theorem claim_C5_empty_result_is_failure :
    (∀ path raw_text, (∀ l ∈ pySplitlines raw_text, pyStrip l = []) →
        extract_text_with_tesseract path true true raw_text =
          .error (.runtimeError tessEmptyMsg)) ∧
    (∀ path result, (∀ l ∈ result, pyStrip l = []) →
        extract_text_with_easyocr path true true result =
          .error (.runtimeError easyEmptyMsg)) ∧
    (∀ path file_exists tess_installed raw_text cleaned,
        extract_text_with_tesseract path file_exists tess_installed raw_text = .ok cleaned →
          cleaned ≠ []) ∧
    (∀ path easy_available file_exists result cleaned,
        extract_text_with_easyocr path easy_available file_exists result = .ok cleaned →
          cleaned ≠ []) := by
  refine ⟨?_, ?_, ?_, ?_⟩
  · intro path raw_text h
    simp [extract_text_with_tesseract, cleanLines_eq_nil h]
  · intro path result h
    simp [extract_text_with_easyocr, cleanLines_eq_nil h]
  · intro path file_exists tess_installed raw_text cleaned h
    unfold extract_text_with_tesseract at h
    split at h
    · exact absurd h (by simp)
    · split at h
      · exact absurd h (by simp)
      · dsimp only at h
        split at h
        · exact absurd h (by simp)
        · rename_i hne
          obtain rfl : cleanLines (pySplitlines raw_text) = cleaned := by
            simpa using h
          simpa [List.isEmpty_iff] using hne
  · intro path easy_available file_exists result cleaned h
    unfold extract_text_with_easyocr at h
    split at h
    · exact absurd h (by simp)
    · split at h
      · exact absurd h (by simp)
      · dsimp only at h
        split at h
        · exact absurd h (by simp)
        · rename_i hne
          obtain rfl : cleanLines result = cleaned := by simpa using h
          simpa [List.isEmpty_iff] using hne

/-- C5 witness: both adapters, run on concrete whitespace-only recognizer
output, fail with their empty-result errors; and a concrete successful
extract has non-empty text. -/
theorem claim_C5_witness :
    extract_text_with_tesseract "img.png".data true true "  \n\t \n".data =
      .error (.runtimeError tessEmptyMsg) ∧
    extract_text_with_easyocr "img.png".data true true ["  ".data, "".data] =
      .error (.runtimeError easyEmptyMsg) ∧
    ("HELLO".data : PyStr) ≠ [] :=
  ⟨claim_C5_empty_result_is_failure.1 "img.png".data "  \n\t \n".data (by decide),
   claim_C5_empty_result_is_failure.2.1 "img.png".data ["  ".data, "".data] (by decide),
   claim_C5_empty_result_is_failure.2.2.1 "img.png".data true true " HELLO ".data
     "HELLO".data (by decide)⟩

/-- C8: for every model selector that is an unrecognized shorthand alias
(non-empty, so the default is not substituted), with no explicit
model-string override, the text pipeline rejects the request with the
`ValueError` whose message lists the valid shorthands
(`unsupportedModelMsg` embeds `SUPPORTED_MODELS`), and its event trace is
empty — zero network calls are made. -/
theorem claim_C8_unknown_shorthand_rejected {α : Type}
    (llm : PyStr → PyStr → PyStr → Except PyExc α)
    (text m source_type : PyStr)
    (hne : m ≠ [])
    (hmiss : aliasLookup (pyLower (pyStrip m)) = none) :
    parse_text_pipeline llm text (some m) none source_type =
      ([], .error (.valueError (unsupportedModelMsg (some m)))) := by
  have hres : resolve_model_choice (some m) none =
      .error (.valueError (unsupportedModelMsg (some m))) := by
    have hempty : m.isEmpty = false := by
      cases m with
      | nil => exact absurd rfl hne
      | cons c cs => rfl
    simp [resolve_model_choice, hempty, hmiss]
  simp [parse_text_pipeline, hres]

/-- C8 witness: the concrete unknown shorthand "banana" is rejected with
the alias-listing error and an empty event trace. -/
theorem claim_C8_witness :
    parse_text_pipeline (fun _ _ _ => (.ok 0 : Except PyExc Nat)) "dinner".data
        (some "banana".data) none "text".data =
      ([], .error (.valueError (unsupportedModelMsg (some "banana".data)))) :=
  claim_C8_unknown_shorthand_rejected (fun _ _ _ => (.ok 0 : Except PyExc Nat))
    "dinner".data "banana".data "text".data (by decide) (by decide)

/-- Does an event trace leak the temporary image file: the file was created
but never unlinked by the end of the invocation. -/
def leaksTempFile (trace : List Ev) : Bool :=
  trace.contains Ev.tempCreate && !(trace.contains Ev.tempUnlink)

/-- Traces ending in the `finally`-block unlink never leak. -/
theorem leaksTempFile_append_unlink (l : List Ev) :
    leaksTempFile (l ++ [Ev.tempUnlink]) = false := by
  have h : (l ++ [Ev.tempUnlink]).contains Ev.tempUnlink = true := by
    induction l with
    | nil => rfl
    | cons a t ih => simp only [List.cons_append, List.contains_cons, ih, Bool.or_true]
  simp [leaksTempFile, h]

/-- C9 counterexample: on an invocation whose bytes decode but whose
`img.save` into the freshly created temporary file fails, `parse_image`
raises the invalid-image `ValueError` while the temporary file has been
created and is never unlinked — the decoded copy is not released on this
exit path. -/
theorem claim_C9_counterexample :
    leaksTempFile (parse_image (fun _ _ _ => (.ok 0 : Except PyExc Nat)) false true false
        "tmp.png".data .tesseract true true "HELLO".data [] none none).1 = true ∧
    (parse_image (fun _ _ _ => (.ok 0 : Except PyExc Nat)) false true false
        "tmp.png".data .tesseract true true "HELLO".data [] none none).2 =
      .error (.valueError "Uploaded file is not a valid image.".data) :=
  ⟨rfl, rfl⟩

/-- C9 amended: on every invocation of `parse_image` in which the save of
the decoded image into the temporary file succeeds (`save_ok = true`), the
temporary file is released on every exit path — success, OCR failure, model
resolution failure, LLM failure — because the unlink sits in a `finally`
block; and when decoding fails no temporary file is ever created.  Only the
path where the save itself fails after file creation leaks the file. -/
theorem claim_C9_amended {α : Type} (llm : PyStr → PyStr → PyStr → Except PyExc α)
    (image_bytes_empty decodable : Bool) (temp_name : PyStr) (ocr_mode : OCRMode)
    (easy_available tess_installed : Bool) (tess_raw : PyStr) (easy_raw : List PyStr)
    (model model_string : Option PyStr) :
    leaksTempFile (parse_image llm image_bytes_empty decodable true temp_name ocr_mode
        easy_available tess_installed tess_raw easy_raw model model_string).1 = false := by
  cases image_bytes_empty with
  | true => rfl
  | false =>
    cases decodable with
    | false => rfl
    | true =>
      unfold parse_image
      simp only [Bool.false_eq_true, if_false, write_temp_image, Bool.not_true,
        Bool.not_false, if_true]
      rcases hstep : (match ocr_mode with
        | OCRMode.tesseract =>
          ([Ev.ocrTesseract], extract_text_with_tesseract temp_name true tess_installed tess_raw)
        | OCRMode.easyocr =>
          ([Ev.ocrEasyocr], extract_text_with_easyocr temp_name easy_available true easy_raw)
        | OCRMode.fusion =>
          run_fusion_ocr temp_name easy_available tess_installed tess_raw easy_raw :
          List Ev × Except PyExc PyStr) with ⟨evs2, r⟩
      cases r with
      | error e => simpa using leaksTempFile_append_unlink (Ev.tempCreate :: evs2)
      | ok ocr_text =>
        rcases hp : parse_text_pipeline llm ocr_text model model_string ocr_mode.value
          with ⟨evs3, r3⟩
        cases r3 with
        | error e =>
          simp only [hp]
          simpa using leaksTempFile_append_unlink (Ev.tempCreate :: (evs2 ++ evs3))
        | ok event =>
          simp only [hp]
          simpa using leaksTempFile_append_unlink (Ev.tempCreate :: (evs2 ++ evs3))

/-- An LLM-call event in the text pipeline's trace always carries exactly
the `source_type` the pipeline was invoked with. -/
theorem llmCall_source_type {α : Type} (llm : PyStr → PyStr → PyStr → Except PyExc α)
    (text : PyStr) (model model_string : Option PyStr) (source_type st : PyStr)
    (h : Ev.llmCall st ∈ (parse_text_pipeline llm text model model_string source_type).1) :
    st = source_type := by
  unfold parse_text_pipeline at h
  rcases hr : resolve_model_choice model model_string with e | selected
  · rw [hr] at h
    simp at h
  · rw [hr] at h
    by_cases hemp : (pyStrip text).isEmpty = true
    · simp [hemp] at h
    · simp only [hemp, Bool.false_eq_true, if_false] at h
      have := List.mem_singleton.mp h
      exact (Ev.llmCall.injEq st source_type).mp this

/-- C6 counterexample: the `/parse/text` endpoint accepts a request whose
`source_type` is the arbitrary tag "custom-tag" (pydantic validation
passes) and forwards exactly that tag to the extraction boundary, so the
forwarded provenance tag is not confined to the four documented values. -/
theorem claim_C6_counterexample :
    mkTextParseRequest "dinner at 7".data none none (some "custom-tag".data) =
      some ⟨"dinner at 7".data, none, none, "custom-tag".data⟩ ∧
    (server_parse_text (fun _ _ _ => (.ok 0 : Except PyExc Nat))
        ⟨"dinner at 7".data, none, none, "custom-tag".data⟩).1 =
      [.llmCall "custom-tag".data] ∧
    PROVENANCE_TAGS.contains "custom-tag".data = false := by
  refine ⟨by decide, by decide, by decide⟩


/-- C6 amended: every request the image pipeline forwards to the extraction
boundary carries one of the three OCR provenance tags (hence one of the
four documented values), and a text request whose `source_type` field is
omitted carries the default tag "text"; but the text endpoint forwards any
caller-supplied `source_type` string unvalidated, so tags outside the four
documented values are possible (see the counterexample). -/
theorem claim_C6_amended {α : Type} :
    (∀ (llm : PyStr → PyStr → PyStr → Except PyExc α)
        (image_bytes_empty decodable save_ok : Bool) (temp_name : PyStr)
        (ocr_mode : OCRMode) (easy_available tess_installed : Bool)
        (tess_raw : PyStr) (easy_raw : List PyStr) (model model_string : Option PyStr)
        (st : PyStr),
      Ev.llmCall st ∈ (parse_image llm image_bytes_empty decodable save_ok temp_name
          ocr_mode easy_available tess_installed tess_raw easy_raw model model_string).1 →
        st ∈ PROVENANCE_TAGS) ∧
    (∀ (llm : PyStr → PyStr → PyStr → Except PyExc α)
        (text : PyStr) (model model_string : Option PyStr) (req : TextParseRequest)
        (st : PyStr),
      mkTextParseRequest text model model_string none = some req →
      Ev.llmCall st ∈ (server_parse_text llm req).1 →
        st = "text".data) := by
  constructor
  · intro llm image_bytes_empty decodable save_ok temp_name ocr_mode easy_available
      tess_installed tess_raw easy_raw model model_string st h
    suffices hst : st = ocr_mode.value by
      subst hst
      rcases ocr_mode <;> simp [PROVENANCE_TAGS, OCRMode.value]
    unfold parse_image at h
    rcases image_bytes_empty with _ | _
    case true => simp at h
    rcases decodable with _ | _
    case false => simp [write_temp_image] at h
    rcases save_ok with _ | _
    case false => simp [write_temp_image] at h
    simp only [Bool.false_eq_true, if_false, write_temp_image, Bool.not_true, Bool.not_false,
      if_true] at h
    rcases ocr_mode with _ | _ | _
    case tesseract =>
      rcases hr : extract_text_with_tesseract temp_name true tess_installed tess_raw
        with e | ocr_text
      · rw [hr] at h; simp at h
      · rw [hr] at h
        dsimp only at h
        rcases hp : parse_text_pipeline llm ocr_text model model_string
            OCRMode.tesseract.value with ⟨evs3, r3⟩
        rw [hp] at h
        have hmem : Ev.llmCall st ∈ evs3 := by
          rcases r3 with e3 | ev3 <;> simpa using h
        exact llmCall_source_type llm ocr_text model model_string OCRMode.tesseract.value st
          (by rw [hp]; exact hmem)
    case easyocr =>
      rcases hr : extract_text_with_easyocr temp_name easy_available true easy_raw
        with e | ocr_text
      · rw [hr] at h; simp at h
      · rw [hr] at h
        dsimp only at h
        rcases hp : parse_text_pipeline llm ocr_text model model_string
            OCRMode.easyocr.value with ⟨evs3, r3⟩
        rw [hp] at h
        have hmem : Ev.llmCall st ∈ evs3 := by
          rcases r3 with e3 | ev3 <;> simpa using h
        exact llmCall_source_type llm ocr_text model model_string OCRMode.easyocr.value st
          (by rw [hp]; exact hmem)
    case fusion =>
      rcases easy_available with _ | _
      case false => simp [run_fusion_ocr] at h
      simp only [run_fusion_ocr, Bool.not_true, Bool.false_eq_true, if_false] at h
      rcases hr : fuse_completions
          [(EngineRole.tesseract, extract_text_with_tesseract temp_name true tess_installed
              tess_raw),
           (EngineRole.easyocr, extract_text_with_easyocr temp_name true true easy_raw)]
        with e | ocr_text
      · rw [hr] at h; simp at h
      · rw [hr] at h
        dsimp only at h
        rcases hp : parse_text_pipeline llm ocr_text model model_string
            OCRMode.fusion.value with ⟨evs3, r3⟩
        rw [hp] at h
        have hmem : Ev.llmCall st ∈ evs3 := by
          rcases r3 with e3 | ev3 <;> simpa using h
        exact llmCall_source_type llm ocr_text model model_string OCRMode.fusion.value st
          (by rw [hp]; exact hmem)
  · intro llm text model model_string req st hreq h
    have hsrc : req.source_type = "text".data := by
      unfold mkTextParseRequest at hreq
      by_cases hemp : (pyStrip text).isEmpty = true
      · simp [hemp] at hreq
      · simp only [hemp, Bool.false_eq_true, if_false, Option.some.injEq] at hreq
        rw [← hreq]
        exact (by decide : pyStrip ((none : Option PyStr).getD "text".data) = "text".data)
    exact hsrc ▸ llmCall_source_type llm req.text req.model req.model_string
      req.source_type st h

/-- C6 witness: a concrete successful single-engine image parse forwards
the tag "ocr-tesseract", which is among the documented provenance tags. -/
theorem claim_C6_witness :
    ("ocr-tesseract".data : PyStr) ∈ PROVENANCE_TAGS :=
  (claim_C6_amended (α := Nat)).1 (fun _ _ _ => .ok 0) false true true "tmp.png".data
    .tesseract true true " HI ".data [] none none "ocr-tesseract".data (by decide)

/-- Dropping while a predicate holds skips over a block on which it holds
everywhere. -/
theorem dropWhile_append_all {p : Char → Bool} {a : PyStr} (b : PyStr)
    (h : ∀ c ∈ a, p c = true) : (a ++ b).dropWhile p = b.dropWhile p := by
  induction a with
  | nil => rfl
  | cons c cs ih =>
    have hc : p c = true := h c (List.mem_cons_self c cs)
    simp only [List.cons_append, List.dropWhile_cons_of_pos hc]
    exact ih (fun x hx => h x (List.mem_cons_of_mem c hx))

/-- Dropping while a predicate holds stops inside a block containing a
rejected character, leaving everything to its right untouched. -/
theorem dropWhile_append_stop {p : Char → Bool} (x y : PyStr)
    (h : ∃ c ∈ x, p c = false) : (x ++ y).dropWhile p = x.dropWhile p ++ y := by
  induction x with
  | nil => simp at h
  | cons c cs ih =>
    by_cases hc : p c = true
    · have hcs : ∃ d ∈ cs, p d = false := by
        obtain ⟨d, hd, hpd⟩ := h
        rcases List.mem_cons.mp hd with rfl | hd'
        · rw [hc] at hpd
          exact absurd hpd (by simp)
        · exact ⟨d, hd', hpd⟩
      simp only [List.cons_append, List.dropWhile_cons_of_pos hc, ih hcs]
    · simp only [List.cons_append, List.dropWhile_cons_of_neg hc]

/-- Right-stripping does not touch a left part when the right part still
contains a character the predicate rejects. -/
theorem rstripBy_append {p : Char → Bool} (a b : PyStr)
    (h : ∃ c ∈ b, p c = false) : rstripBy p (a ++ b) = a ++ rstripBy p b := by
  unfold rstripBy
  rw [List.reverse_append]
  have hrev : ∃ c ∈ b.reverse, p c = false := by
    obtain ⟨c, hc, hpc⟩ := h
    exact ⟨c, List.mem_reverse.mpr hc, hpc⟩
  rw [dropWhile_append_stop _ _ hrev, List.reverse_append, List.reverse_reverse]

/-- Appending two `dropWhile` fixed points yields a `dropWhile` fixed
point. -/
theorem dropWhile_append_of_fixed {p : Char → Bool} {a : PyStr}
    (ha : a.dropWhile p = a) (b : PyStr) (hb : b.dropWhile p = b) :
    (a ++ b).dropWhile p = a ++ b := by
  cases a with
  | nil => simpa using hb
  | cons c cs =>
    have hc : ¬ p c = true := by
      intro hpc
      have hlen := congrArg List.length ha
      rw [List.dropWhile_cons_of_pos hpc] at hlen
      have hle := (List.dropWhile_suffix (l := cs) p).sublist.length_le
      simp only [List.length_cons] at hlen
      omega
    simp [List.dropWhile_cons_of_neg hc]

/-- A string equal to its own strip is equal to its own left strip and its
own right strip. -/
theorem pyStrip_fixed_parts {l : PyStr} (h : pyStrip l = l) :
    l.dropWhile pyIsSpace = l ∧ rstripBy pyIsSpace l = l := by
  have hsfx : l.dropWhile pyIsSpace <:+ l := List.dropWhile_suffix pyIsSpace
  have hlen1 := hsfx.sublist.length_le
  have hpre : pyStrip l <+: l.dropWhile pyIsSpace := by
    unfold pyStrip rstripBy lstripBy
    rw [← List.reverse_suffix, List.reverse_reverse]
    exact List.dropWhile_suffix pyIsSpace
  have hlen2 := hpre.sublist.length_le
  rw [h] at hlen2
  have hlen : (l.dropWhile pyIsSpace).length = l.length :=
    le_antisymm hlen1 hlen2
  have hfix : l.dropWhile pyIsSpace = l := hsfx.sublist.eq_of_length hlen
  refine ⟨hfix, ?_⟩
  have h2 : pyStrip l = rstripBy pyIsSpace l := by
    unfold pyStrip lstripBy
    rw [hfix]
  rw [← h2]
  exact h

/-- The head of a `dropWhile` fixed point is rejected by the predicate. -/
theorem head_false_of_dropWhile_fixed {p : Char → Bool} {c : Char} {cs : PyStr}
    (h : List.dropWhile p (c :: cs) = c :: cs) : p c = false := by
  cases hpc : p c
  · rfl
  · exfalso
    have hlen := congrArg List.length h
    rw [List.dropWhile_cons_of_pos hpc] at hlen
    have hle := (List.dropWhile_suffix (l := cs) p).sublist.length_le
    simp only [List.length_cons] at hlen
    omega

/-- Stripping a string that is already stripped, then given a trailing
newline, recovers the string itself. -/
theorem pyStrip_append_newline {body : PyStr} (hbody : pyStrip body = body) :
    pyStrip (body ++ ['\n']) = body := by
  obtain ⟨hl, hr⟩ := pyStrip_fixed_parts hbody
  cases body with
  | nil => decide
  | cons c cs =>
    have hc : pyIsSpace c = false := head_false_of_dropWhile_fixed hl
    unfold pyStrip lstripBy
    have hdrop : List.dropWhile pyIsSpace ((c :: cs) ++ ['\n']) = (c :: cs) ++ ['\n'] := by
      rw [dropWhile_append_stop _ _ ⟨c, List.mem_cons_self c cs, hc⟩, hl]
    rw [hdrop]
    unfold rstripBy
    rw [List.reverse_append, (by decide : List.reverse ['\n'] = ['\n']),
      List.singleton_append,
      List.dropWhile_cons_of_pos (by decide : pyIsSpace '\n' = true)]
    have : (List.reverse (c :: cs)).dropWhile pyIsSpace = List.reverse (c :: cs) := by
      have := hr
      unfold rstripBy at this
      have hlen := congrArg List.length this
      rw [List.length_reverse] at hlen
      have hsfx := List.dropWhile_suffix (l := (c :: cs).reverse) pyIsSpace
      refine hsfx.sublist.eq_of_length ?_
      have : ((c :: cs).reverse.dropWhile pyIsSpace).length = (c :: cs).length := by
        simpa using hlen
      simpa using this
    rw [this, List.reverse_reverse]

/-- C7: for every reply body consisting of a JSON object wrapped in a
fenced code block — three backticks, an optional language tag with no
newline, a newline, the JSON text (already stripped), a newline, and a
closing three-backtick fence — `response_to_json` strips the fence and
returns exactly the object that `json.loads` (abstracted by `loads`)
produces on the wrapped JSON text. -/
theorem claim_C7_fence_roundtrip {α : Type} (loads : PyStr → Option α)
    (lang body : PyStr) (obj : α)
    (hlang : '\n' ∉ lang) (hbody : pyStrip body = body)
    (hloads : loads body = some obj) :
    response_to_json loads ("```".data ++ lang ++ '\n' :: body ++ '\n' :: "```".data) =
      .ok obj := by
  have hfdef : ("```".data ++ lang ++ '\n' :: body ++ '\n' :: "```".data : PyStr) =
      '`' :: ('`' :: '`' :: (lang ++ '\n' :: body ++ '\n' :: "```".data)) := by
    simp
  have hlfix : List.dropWhile pyIsSpace
      ("```".data ++ lang ++ '\n' :: body ++ '\n' :: "```".data) =
      "```".data ++ lang ++ '\n' :: body ++ '\n' :: "```".data := by
    rw [hfdef, List.dropWhile_cons_of_neg (by decide)]
  have hrsplit : ("```".data ++ lang ++ '\n' :: body ++ '\n' :: "```".data : PyStr) =
      ("```".data ++ lang ++ '\n' :: body ++ ['\n']) ++ "```".data := by
    simp
  have hrfix : rstripBy pyIsSpace
      ("```".data ++ lang ++ '\n' :: body ++ '\n' :: "```".data) =
      "```".data ++ lang ++ '\n' :: body ++ '\n' :: "```".data := by
    rw [hrsplit, rstripBy_append _ _ ⟨'`', by decide, by decide⟩,
      (by decide : rstripBy pyIsSpace ("```".data : PyStr) = "```".data)]
  have hstrip : pyStrip ("```".data ++ lang ++ '\n' :: body ++ '\n' :: "```".data) =
      "```".data ++ lang ++ '\n' :: body ++ '\n' :: "```".data := by
    unfold pyStrip lstripBy
    rw [hlfix, hrfix]
  have hdfh : drop_fence_head ("```".data ++ lang ++ '\n' :: body ++ '\n' :: "```".data) =
      body ++ '\n' :: "```".data := by
    have hmem : '\n' ∈ ("```".data ++ lang ++ '\n' :: body ++ '\n' :: "```".data : PyStr) := by
      simp
    unfold drop_fence_head
    rw [if_pos hmem]
    have hsplit : ("```".data ++ lang ++ '\n' :: body ++ '\n' :: "```".data : PyStr) =
        ("```".data ++ lang) ++ '\n' :: (body ++ '\n' :: "```".data) := by
      simp
    rw [hsplit, dropWhile_append_all _ ?hall,
      List.dropWhile_cons_of_neg (by decide), List.drop_one, List.tail_cons]
    case hall =>
      intro c hc
      rcases List.mem_append.mp hc with h1 | h2
      · have : c = '`' := by simpa using h1
        subst this
        decide
      · have hne : ¬ c = '\n' := fun e => hlang (e ▸ h2)
        simpa using hne
  have hsf : strip_code_fence ("```".data ++ lang ++ '\n' :: body ++ '\n' :: "```".data) =
      body := by
    unfold strip_code_fence
    have hpre : ("```".data : PyStr) <+:
        "```".data ++ lang ++ '\n' :: body ++ '\n' :: "```".data :=
      List.prefix_append _ _
    have hsfx : ("```".data : PyStr) <:+ body ++ '\n' :: "```".data :=
      ⟨body ++ ['\n'], by simp⟩
    rw [hdfh]
    simp only [hpre, hsfx, if_true]
    have hlen' : (body ++ '\n' :: "```".data : PyStr).length - 3 = body.length + 1 := by
      simp [List.length_append]
    rw [hlen']
    have htake : (body ++ '\n' :: "```".data : PyStr).take (body.length + 1) =
        body ++ ['\n'] := by
      have hsp : (body ++ '\n' :: "```".data : PyStr) = (body ++ ['\n']) ++ "```".data := by
        simp
      rw [hsp]
      have hl : body.length + 1 = (body ++ ['\n']).length + 0 := by simp
      rw [hl, List.take_append, List.take_zero, List.append_nil]
    rw [htake]
    exact pyStrip_append_newline hbody
  show (match loads (strip_code_fence
      (pyStrip ("```".data ++ lang ++ '\n' :: body ++ '\n' :: "```".data))) with
    | some j => (Except.ok j : Except PyExc α)
    | none => .error (.runtimeError ("Model output was not valid JSON:\n".data ++
        ("```".data ++ lang ++ '\n' :: body ++ '\n' :: "```".data)))) = .ok obj
  rw [hstrip, hsf, hloads]

/-- C7 witness: the concrete fenced reply with language tag "json" wrapping
the object text parses, under the identity `loads`, to exactly the wrapped
text. -/
theorem claim_C7_witness :
    response_to_json (fun s => some s) ("```json\n\x7b\"a\":1\x7d\n```".data) =
      .ok ("\x7b\"a\":1\x7d".data) := by
  have hsplit : ("```json\n\x7b\"a\":1\x7d\n```".data : PyStr) =
      "```".data ++ "json".data ++ '\n' :: "\x7b\"a\":1\x7d".data ++ '\n' :: "```".data := by
    decide
  rw [hsplit]
  exact claim_C7_fence_roundtrip (fun s => some s) "json".data "\x7b\"a\":1\x7d".data
    "\x7b\"a\":1\x7d".data (by decide) (by decide) rfl

/-- `splitNL` never returns the empty list. -/
theorem splitNL_ne_nil (s : PyStr) : splitNL s ≠ [] := by
  cases s with
  | nil => simp [splitNL]
  | cons c rest =>
    unfold splitNL
    split
    · simp
    · rcases h : splitNL rest with _ | ⟨l, ls⟩ <;> simp

/-- Splitting a string that starts with a newline. -/
theorem splitNL_cons_nl (rest : PyStr) : splitNL ('\n' :: rest) = [] :: splitNL rest := by
  conv_lhs => unfold splitNL
  rw [if_pos rfl]

/-- Splitting a string that starts with an ordinary character extends the
first line of the remaining split. -/
theorem splitNL_cons_other {c : Char} (hc : c ≠ '\n') {rest l : PyStr} {ls : List PyStr}
    (h : splitNL rest = l :: ls) : splitNL (c :: rest) = (c :: l) :: ls := by
  conv_lhs => unfold splitNL
  rw [if_neg hc, h]

/-- `split('\n')` distributes over a newline: the split of `a ++ '\n' :: b`
is the split of `a` followed by the split of `b`. -/
theorem splitNL_append_nl (a b : PyStr) :
    splitNL (a ++ '\n' :: b) = splitNL a ++ splitNL b := by
  induction a with
  | nil => simp [splitNL_cons_nl, splitNL]
  | cons c cs ih =>
    by_cases hc : c = '\n'
    · subst hc
      rw [List.cons_append, splitNL_cons_nl, splitNL_cons_nl, ih, List.cons_append]
    · obtain ⟨l, ls, hls⟩ : ∃ l ls, splitNL cs = l :: ls := by
        rcases h : splitNL cs with _ | ⟨l, ls⟩
        · exact absurd h (splitNL_ne_nil cs)
        · exact ⟨l, ls, rfl⟩
      rw [List.cons_append, splitNL_cons_other hc (ih.trans (by rw [hls, List.cons_append])),
        splitNL_cons_other hc hls, List.cons_append]

/-- A newline-free string splits into the single line it is. -/
theorem splitNL_no_nl {a : PyStr} (h : '\n' ∉ a) : splitNL a = [a] := by
  induction a with
  | nil => rfl
  | cons c cs ih =>
    have hc : ¬ c = '\n' := fun e => h (e ▸ List.mem_cons_self c cs)
    have hcs : '\n' ∉ cs := fun hin => h (List.mem_cons_of_mem c hin)
    exact splitNL_cons_other hc (ih hcs)

/-- Prepending a newline-free block extends the first line of a split. -/
theorem splitNL_append_left {a b : PyStr} (h : '\n' ∉ a) {l : PyStr} {ls : List PyStr}
    (hb : splitNL b = l :: ls) : splitNL (a ++ b) = (a ++ l) :: ls := by
  induction a with
  | nil => simpa using hb
  | cons c cs ih =>
    have hc : ¬ c = '\n' := fun e => h (e ▸ List.mem_cons_self c cs)
    have hcs : '\n' ∉ cs := fun hin => h (List.mem_cons_of_mem c hin)
    rw [List.cons_append, splitNL_cons_other hc (ih hcs), List.cons_append]

/-- `joinNL` on a cons with a non-empty tail. -/
theorem joinNL_cons (l : PyStr) {ls : List PyStr} (h : ls ≠ []) :
    joinNL (l :: ls) = l ++ '\n' :: joinNL ls := by
  cases ls with
  | nil => exact absurd rfl h
  | cons x xs => rfl

/-- `joinNL` distributes over an append of non-empty line lists, inserting
the separating newline. -/
theorem joinNL_append {xs ys : List PyStr} (hx : xs ≠ []) (hy : ys ≠ []) :
    joinNL (xs ++ ys) = joinNL xs ++ '\n' :: joinNL ys := by
  induction xs with
  | nil => exact absurd rfl hx
  | cons x xs ih =>
    cases xs with
    | nil =>
      rw [List.singleton_append, joinNL_cons x hy]
      rfl
    | cons x2 xs2 =>
      have hne : (x2 :: xs2 : List PyStr) ++ ys ≠ [] := by simp
      rw [List.cons_append, joinNL_cons x hne, ih (by simp),
        joinNL_cons x (by simp : (x2 :: xs2 : List PyStr) ≠ []), List.append_assoc,
        List.cons_append]

/-- The longest common prefix is a prefix of its left argument. -/
theorem commonStem_shrinks (a b : PyStr) : commonStem a b <+: a := by
  induction a generalizing b with
  | nil => cases b <;> simp [commonStem]
  | cons c cs ih =>
    cases b with
    | nil => simp [commonStem]
    | cons d ds =>
      unfold commonStem
      split
      · exact List.cons_prefix_cons.mpr ⟨rfl, ih ds⟩
      · simp

/-- The margin scan started from an initial margin only ever shrinks it. -/
theorem foldl_marginStep_shrinks (ls : List PyStr) (m : PyStr) :
    ∃ m', List.foldl marginStep (some m) ls = some m' ∧ m' <+: m := by
  induction ls generalizing m with
  | nil => exact ⟨m, rfl, List.prefix_refl m⟩
  | cons l rest ih =>
    rw [List.foldl_cons]
    unfold marginStep
    split
    · obtain ⟨m', hm', hpre⟩ := ih (commonStem m (lineIndent l))
      exact ⟨m', hm', hpre.trans (commonStem_shrinks m (lineIndent l))⟩
    · exact ih m

/-- Taking while a predicate holds passes over a block on which it holds
everywhere. -/
theorem takeWhile_append_all {p : Char → Bool} {a : PyStr} (b : PyStr)
    (h : ∀ c ∈ a, p c = true) : (a ++ b).takeWhile p = a ++ b.takeWhile p := by
  induction a with
  | nil => rfl
  | cons c cs ih =>
    have hc : p c = true := h c (List.mem_cons_self c cs)
    simp only [List.cons_append, List.takeWhile_cons_of_pos hc]
    rw [ih (fun x hx => h x (List.mem_cons_of_mem c hx))]

/-- A line with content is untouched by blank-line normalization. -/
theorem blankNorm_of_content {l : PyStr} (h : hasContent l = true) : blankNorm l = l := by
  unfold blankNorm
  rw [if_neg]
  intro hcond
  have hall : l.all isIndentChar = true := ((Bool.and_eq_true _ _).mp hcond).2
  have hdrop : l.dropWhile isIndentChar = [] := by
    rw [List.dropWhile_eq_nil_iff]
    intro x hx
    exact List.all_eq_true.mp hall x hx
  unfold hasContent at h
  rw [hdrop] at h
  simp at h

/-- A line made of the template indent, then a non-indent character, then
anything: it has content and its indent is exactly the template indent. -/
theorem hasContent_indent_cons {c : Char} (hc : isIndentChar c = false) (r : PyStr) :
    hasContent (tmplInd ++ c :: r) = true ∧ lineIndent (tmplInd ++ c :: r) = tmplInd := by
  have hall : ∀ d ∈ (tmplInd : PyStr), isIndentChar d = true := by decide
  refine ⟨?_, ?_⟩
  · unfold hasContent
    rw [dropWhile_append_all _ hall, List.dropWhile_cons_of_neg (by simp [hc])]
    simp
  · unfold lineIndent
    rw [takeWhile_append_all _ hall, List.takeWhile_cons_of_neg (by simp [hc])]
    simp

/-- Removing a margin from the empty line leaves it empty. -/
theorem removeMargin_nil (m : PyStr) : removeMargin m [] = [] := by
  unfold removeMargin
  split <;> simp

/-- Removing a margin that is a prefix of the template indent from an
indented line drops exactly the margin. -/
theorem removeMargin_indented {m : PyStr} (hm : m <+: (tmplInd : PyStr)) (x : PyStr) :
    removeMargin m (tmplInd ++ x) = tmplInd.drop m.length ++ x := by
  unfold removeMargin
  have hpre : m <+: tmplInd ++ x := hm.trans (List.prefix_append _ _)
  rw [if_pos (List.isPrefixOf_iff_prefix.mpr hpre)]
  rw [List.drop_append_eq_append_drop]
  have hle : m.length ≤ (tmplInd : PyStr).length := hm.length_le
  rw [Nat.sub_eq_zero_of_le hle, List.drop_zero]

/-- The head of a non-empty `dropWhile` result is rejected by the
predicate. -/
theorem dropWhile_head_false {p : Char → Bool} {t : PyStr} {d : Char} {ds : PyStr}
    (h : t.dropWhile p = d :: ds) : p d = false := by
  induction t with
  | nil => simp at h
  | cons x xs ih =>
    by_cases hx : p x = true
    · rw [List.dropWhile_cons_of_pos hx] at h
      exact ih h
    · rw [List.dropWhile_cons_of_neg hx] at h
      cases h
      simpa using hx

/-- The placeholder-or-strip of a transcript starts with a non-whitespace
character. -/
theorem orPlaceholder_head (t : PyStr) :
    ∃ c cs, orPlaceholder t = c :: cs ∧ pyIsSpace c = false := by
  unfold orPlaceholder
  split
  · exact ⟨'(', "no text found)".data, rfl, by decide⟩
  · rename_i hne
    rcases h : pyStrip t with _ | ⟨c, cs⟩
    · rw [h] at hne
      simp at hne
    · refine ⟨c, cs, rfl, ?_⟩
      have hpre : pyStrip t <+: t.dropWhile pyIsSpace := by
        unfold pyStrip rstripBy lstripBy
        rw [← List.reverse_suffix, List.reverse_reverse]
        exact List.dropWhile_suffix pyIsSpace
      obtain ⟨q, hq⟩ := hpre
      rw [h] at hq
      rcases hu : t.dropWhile pyIsSpace with _ | ⟨d, ds⟩
      · rw [hu] at hq
        simp at hq
      · rw [hu] at hq
        have hcd : c = d := (List.cons.injEq .. ▸ hq |> And.left)
        rw [hcd]
        exact dropWhile_head_false hu

/-- Indent characters are whitespace. -/
theorem indent_imp_space {c : Char} (h : isIndentChar c = true) : pyIsSpace c = true := by
  unfold isIndentChar at h
  rcases (Bool.or_eq_true _ _).mp h with h1 | h1
  · have : c = ' ' := by simpa using h1
    subst this
    decide
  · have : c = '\t' := by simpa using h1
    subst this
    decide

/-- The rendered fusion transcript always decomposes as the Tesseract
header, some middle block, the EasyOCR header, and a tail — the primary
section precedes the secondary section, for every pair of transcripts. -/
theorem format_fusion_sections (t e : PyStr) :
    ∃ mid tail,
      format_fusion_transcript t e = tessHeader ++ mid ++ easyHeader ++ tail := by
  classical
  obtain ⟨ct, cst, hT, hTs⟩ := orPlaceholder_head t
  obtain ⟨ce, cse, hE, hEs⟩ := orPlaceholder_head e
  have hItT : isIndentChar ct = false := by
    cases hi : isIndentChar ct
    · rfl
    · rw [indent_imp_space hi] at hTs
      exact absurd hTs (by simp)
  have hItE : isIndentChar ce = false := by
    cases hi : isIndentChar ce
    · rfl
    · rw [indent_imp_space hi] at hEs
      exact absurd hEs (by simp)
  have hneT : ct ≠ '\n' := by
    intro hh
    rw [hh] at hTs
    exact absurd hTs (by decide)
  have hneE : ce ≠ '\n' := by
    intro hh
    rw [hh] at hEs
    exact absurd hEs (by decide)
  obtain ⟨lT, Ts, hsplit_cst⟩ : ∃ l ls, splitNL cst = l :: ls := by
    rcases h : splitNL cst with _ | ⟨l, ls⟩
    · exact absurd h (splitNL_ne_nil cst)
    · exact ⟨l, ls, rfl⟩
  obtain ⟨lE, Es, hsplit_cse⟩ : ∃ l ls, splitNL cse = l :: ls := by
    rcases h : splitNL cse with _ | ⟨l, ls⟩
    · exact absurd h (splitNL_ne_nil cse)
    · exact ⟨l, ls, rfl⟩
  have hsplitT : splitNL (orPlaceholder t) = (ct :: lT) :: Ts := by
    rw [hT]
    exact splitNL_cons_other hneT hsplit_cst
  have hsplitE : splitNL (orPlaceholder e) = (ce :: lE) :: Es := by
    rw [hE]
    exact splitNL_cons_other hneE hsplit_cse
  have htempl : fusionTemplate t e =
      '\n' :: ((tmplInd ++ tessHeader) ++ '\n' :: ((tmplInd ++ tessDashes) ++ '\n' ::
        ((tmplInd ++ orPlaceholder t) ++ '\n' :: ('\n' :: ((tmplInd ++ easyHeader) ++ '\n' ::
          ((tmplInd ++ easyDashes) ++ '\n' ::
            ((tmplInd ++ orPlaceholder e) ++ '\n' :: tmplInd))))))) := rfl
  have hnlInd : '\n' ∉ (tmplInd : PyStr) := by decide
  have hLS : splitNL (fusionTemplate t e) =
      [] :: ([tmplInd ++ tessHeader] ++ ([tmplInd ++ tessDashes] ++
        (((tmplInd ++ (ct :: lT)) :: Ts) ++ ([] :: ([tmplInd ++ easyHeader] ++
          ([tmplInd ++ easyDashes] ++
            (((tmplInd ++ (ce :: lE)) :: Es) ++ [tmplInd]))))))) := by
    rw [htempl, splitNL_cons_nl,
      splitNL_append_nl (tmplInd ++ tessHeader),
      splitNL_no_nl (by decide : '\n' ∉ (tmplInd ++ tessHeader : PyStr)),
      splitNL_append_nl (tmplInd ++ tessDashes),
      splitNL_no_nl (by decide : '\n' ∉ (tmplInd ++ tessDashes : PyStr)),
      splitNL_append_nl (tmplInd ++ orPlaceholder t),
      splitNL_append_left hnlInd hsplitT,
      splitNL_cons_nl,
      splitNL_append_nl (tmplInd ++ easyHeader),
      splitNL_no_nl (by decide : '\n' ∉ (tmplInd ++ easyHeader : PyStr)),
      splitNL_append_nl (tmplInd ++ easyDashes),
      splitNL_no_nl (by decide : '\n' ∉ (tmplInd ++ easyDashes : PyStr)),
      splitNL_append_nl (tmplInd ++ orPlaceholder e),
      splitNL_append_left hnlInd hsplitE,
      splitNL_no_nl hnlInd]
  have hbT : blankNorm (tmplInd ++ (ct :: lT)) = tmplInd ++ (ct :: lT) :=
    blankNorm_of_content (hasContent_indent_cons hItT lT).1
  have hbE : blankNorm (tmplInd ++ (ce :: lE)) = tmplInd ++ (ce :: lE) :=
    blankNorm_of_content (hasContent_indent_cons hItE lE).1
  have hLS1 : (splitNL (fusionTemplate t e)).map blankNorm =
      [] :: ([tmplInd ++ tessHeader] ++ ([tmplInd ++ tessDashes] ++
        (((tmplInd ++ (ct :: lT)) :: Ts.map blankNorm) ++ ([] :: ([tmplInd ++ easyHeader] ++
          ([tmplInd ++ easyDashes] ++
            (((tmplInd ++ (ce :: lE)) :: Es.map blankNorm) ++ [[]]))))))) := by
    rw [hLS]
    simp only [List.map_cons, List.map_append, List.map_nil]
    rw [hbT, hbE,
      (by decide : blankNorm [] = []),
      (by decide : blankNorm tmplInd = []),
      (by decide : blankNorm (tmplInd ++ tessHeader) = tmplInd ++ tessHeader),
      (by decide : blankNorm (tmplInd ++ tessDashes) = tmplInd ++ tessDashes),
      (by decide : blankNorm (tmplInd ++ easyHeader) = tmplInd ++ easyHeader),
      (by decide : blankNorm (tmplInd ++ easyDashes) = tmplInd ++ easyDashes)]
  obtain ⟨margin, hfold, hmpre⟩ := foldl_marginStep_shrinks
    ([tmplInd ++ tessDashes] ++
      (((tmplInd ++ (ct :: lT)) :: Ts.map blankNorm) ++ ([] :: ([tmplInd ++ easyHeader] ++
        ([tmplInd ++ easyDashes] ++
          (((tmplInd ++ (ce :: lE)) :: Es.map blankNorm) ++ [[]])))))) tmplInd
  have hmargin : dedentMargin ((splitNL (fusionTemplate t e)).map blankNorm) = some margin := by
    rw [hLS1]
    unfold dedentMargin
    rw [List.foldl_cons, (by decide : marginStep none [] = none), List.singleton_append,
      List.foldl_cons,
      (by decide : marginStep none (tmplInd ++ tessHeader) = some tmplInd)]
    exact hfold
  have hmap2 : (((splitNL (fusionTemplate t e)).map blankNorm).map (removeMargin margin)) =
      [] :: ([tmplInd.drop margin.length ++ tessHeader] ++
        ([tmplInd.drop margin.length ++ tessDashes] ++
          (((tmplInd.drop margin.length ++ (ct :: lT)) :: (Ts.map blankNorm).map
              (removeMargin margin)) ++
            ([] :: ([tmplInd.drop margin.length ++ easyHeader] ++
              ([tmplInd.drop margin.length ++ easyDashes] ++
                (((tmplInd.drop margin.length ++ (ce :: lE)) :: (Es.map blankNorm).map
                    (removeMargin margin)) ++ [[]]))))))) := by
    rw [hLS1]
    simp only [List.map_cons, List.map_append, List.map_nil, removeMargin_nil,
      removeMargin_indented hmpre]
  have hded : pyDedent (fusionTemplate t e) =
      joinNL ([] :: ([tmplInd.drop margin.length ++ tessHeader] ++
        ([tmplInd.drop margin.length ++ tessDashes] ++
          (((tmplInd.drop margin.length ++ (ct :: lT)) :: (Ts.map blankNorm).map
              (removeMargin margin)) ++
            ([] :: ([tmplInd.drop margin.length ++ easyHeader] ++
              ([tmplInd.drop margin.length ++ easyDashes] ++
                (((tmplInd.drop margin.length ++ (ce :: lE)) :: (Es.map blankNorm).map
                    (removeMargin margin)) ++ [[]])))))))) := by
    show joinNL (((splitNL (fusionTemplate t e)).map blankNorm).map
        (removeMargin ((dedentMargin ((splitNL (fusionTemplate t e)).map blankNorm)).getD []))) =
      _
    rw [hmargin, Option.getD_some, hmap2]
  set id2 : PyStr := tmplInd.drop margin.length with hid2
  set Ts2 : List PyStr := (Ts.map blankNorm).map (removeMargin margin) with hTs2def
  set Es2 : List PyStr := (Es.map blankNorm).map (removeMargin margin) with hEs2def
  set MID0 : PyStr :=
    '
' :: joinNL ([id2 ++ tessDashes, id2 ++ (ct :: lT)] ++ Ts2 ++ [([] : PyStr)]) ++
      '
' :: id2 with hMID0
  set TAIL0 : PyStr :=
    '
' :: joinNL ([id2 ++ easyDashes] ++ (((id2 ++ (ce :: lE)) :: Es2) ++ [[]]))
    with hTAIL0
  have hfront_ne : ([[], id2 ++ tessHeader, id2 ++ tessDashes, id2 ++ (ct :: lT)] ++ Ts2 ++
      [([] : PyStr)]) ≠ [] := by simp
  have hback_ne : ([id2 ++ easyDashes] ++ (((id2 ++ (ce :: lE)) :: Es2) ++ [[]])) ≠ [] := by
    simp
  have hshape : ([] :: ([id2 ++ tessHeader] ++ ([id2 ++ tessDashes] ++
      (((id2 ++ (ct :: lT)) :: Ts2) ++ ([] :: ([id2 ++ easyHeader] ++
        ([id2 ++ easyDashes] ++ (((id2 ++ (ce :: lE)) :: Es2) ++ [[]])))))))
        : List PyStr) =
      ([[], id2 ++ tessHeader, id2 ++ tessDashes, id2 ++ (ct :: lT)] ++ Ts2 ++
          [([] : PyStr)]) ++
        ((id2 ++ easyHeader) ::
          ([id2 ++ easyDashes] ++ (((id2 ++ (ce :: lE)) :: Es2) ++ [[]]))) := by
    simp [List.append_assoc]
  have hjf : joinNL ([[], id2 ++ tessHeader, id2 ++ tessDashes, id2 ++ (ct :: lT)] ++ Ts2 ++
      [([] : PyStr)]) =
      '
' :: ((id2 ++ tessHeader) ++ '
' ::
        joinNL ([id2 ++ tessDashes, id2 ++ (ct :: lT)] ++ Ts2 ++ [([] : PyStr)])) := by
    have h1 : ([[], id2 ++ tessHeader, id2 ++ tessDashes, id2 ++ (ct :: lT)] ++ Ts2 ++
        [([] : PyStr)]) =
        [] :: ((id2 ++ tessHeader) ::
          ([id2 ++ tessDashes, id2 ++ (ct :: lT)] ++ Ts2 ++ [([] : PyStr)])) := by
      simp
    rw [h1, joinNL_cons _ (by simp), joinNL_cons _ (by simp), List.nil_append]
  have hback_join : joinNL ([id2 ++ easyDashes] ++ (((id2 ++ (ce :: lE)) :: Es2) ++ [[]])) =
      (id2 ++ easyDashes) ++ '
' :: joinNL (((id2 ++ (ce :: lE)) :: Es2) ++ [[]]) := by
    rw [List.singleton_append, joinNL_cons _ (by simp)]
  have hd2 : pyDedent (fusionTemplate t e) =
      ('
' :: id2) ++ (tessHeader ++ (MID0 ++ (easyHeader ++ TAIL0))) := by
    rw [hded, hshape, joinNL_append hfront_ne (by simp), joinNL_cons _ hback_ne, hjf,
      hMID0, hTAIL0]
    simp [List.append_assoc]
  have hallsp : ∀ c ∈ ('
' :: id2 : PyStr), pyIsSpace c = true := by
    intro c hc
    rcases List.mem_cons.mp hc with rfl | hc'
    · decide
    · have hmemInd : c ∈ (tmplInd : PyStr) := List.mem_of_mem_drop (hid2 ▸ hc')
      have hall : ∀ d ∈ (tmplInd : PyStr), pyIsSpace d = true := by decide
      exact hall c hmemInd
  have hlstrip : (pyDedent (fusionTemplate t e)).dropWhile pyIsSpace =
      tessHeader ++ (MID0 ++ (easyHeader ++ TAIL0)) := by
    rw [hd2, dropWhile_append_all _ hallsp]
    have h1 : (tessHeader : PyStr) = '[' :: "Tesseract OCR Transcript]".data := rfl
    rw [h1, List.cons_append, List.dropWhile_cons_of_neg (by decide)]
  have hmem1 : ∃ c ∈ (easyHeader ++ TAIL0 : PyStr), pyIsSpace c = false :=
    ⟨'[', List.mem_append_left _ (by decide), by decide⟩
  have hmem2 : ∃ c ∈ (TAIL0 : PyStr), pyIsSpace c = false := by
    refine ⟨'-', ?_, by decide⟩
    rw [hTAIL0, hback_join]
    exact List.mem_cons_of_mem _ (List.mem_append_left _ (List.mem_append_right _ (by decide)))
  refine ⟨MID0, rstripBy pyIsSpace TAIL0, ?_⟩
  show pyStrip (pyDedent (fusionTemplate t e)) = _
  unfold pyStrip lstripBy
  rw [hlstrip,
    (by simp [List.append_assoc] : (tessHeader ++ (MID0 ++ (easyHeader ++ TAIL0)) : PyStr) =
      (tessHeader ++ MID0) ++ (easyHeader ++ TAIL0)),
    rstripBy_append _ _ hmem1, rstripBy_append _ _ hmem2]
  simp [List.append_assoc]

/-- C2: for every pair of successful engine transcripts, joining the two
futures by role yields the same fused result whichever task completed
first (first conjunct: the completion list in either order), the fusion
succeeds with the rendered transcript (second conjunct), and the rendered
output places the Tesseract-labeled section before the EasyOCR-labeled
section (third conjunct). -/
theorem claim_C2_primary_section_first (tesseract_text easyocr_text : PyStr) :
    fuse_completions
        [(.tesseract, .ok tesseract_text), (.easyocr, .ok easyocr_text)] =
      fuse_completions
        [(.easyocr, .ok easyocr_text), (.tesseract, .ok tesseract_text)] ∧
    run_fusion_core true (.ok tesseract_text) (.ok easyocr_text) =
      .ok (format_fusion_transcript tesseract_text easyocr_text) ∧
    ∃ mid tail,
      format_fusion_transcript tesseract_text easyocr_text =
        tessHeader ++ mid ++ easyHeader ++ tail :=
  ⟨rfl, rfl, format_fusion_sections tesseract_text easyocr_text⟩
